import Mathlib

/-!
Shallow embedding of the ProductCatalogService domain layer
(`internal/app/product/domain/*.go`), its read-model projection
(`internal/app/product/repo/read_model_repo.go`) and the list-products
query handler (`internal/app/product/queries/list_products`), together
with theorems settling the frozen claims about them.

Conventions:
* `time.Time` is embedded as `Int` (an instant on a total timeline);
  `t.Before(u)` is `t < u`, `t.After(u)` is `t > u`, `t.Equal(u)` is `t = u`.
* `big.Rat` is embedded as `ℚ` (both are exact rationals).
* Go methods that mutate the receiver and return `error` are embedded as
  pure functions `Product → ... → Except DomainError Product`; every such
  Go method performs all error returns before its first mutation, so the
  failed call leaves the receiver unchanged and the embedding is faithful.
* Go `int64` arithmetic in the read-model projection is embedded with an
  explicit two's-complement wrap (`i64mul`, `i64sub`).
-/

namespace ProductCatalog

/-- Sentinel domain errors, from `domain_errors.go`. -/
inductive DomainError where
  | productNotFound
  | productNotActive
  | productAlreadyActive
  | productArchived
  | productInactive
  | emptyProductName
  | emptyCategory
  | invalidProductStatus
  | productNameTooLong
  | categoryTooLong
  | invalidMoney
  | negativeMoney
  | zeroPrice
  | invalidDiscountPercentage
  | invalidDiscountPeriod
  | noDiscountToRemove
  | discountExpired
  | cannotActivateArchived
  | cannotDeactivateArchived
  | cannotArchiveActive
  | cannotUpdateArchived
  deriving DecidableEq, Repr

/-- Decidable equality on `Except`, so that concrete runs of the embedded
operations can be settled by `decide`. -/
instance instDecEqExcept {ε α : Type} [DecidableEq ε] [DecidableEq α] :
    DecidableEq (Except ε α) := fun a b =>
  match a, b with
  | .error x, .error y =>
    if h : x = y then .isTrue (by rw [h])
    else .isFalse (fun hc => by cases hc; exact h rfl)
  | .error _, .ok _ => .isFalse (fun hc => by cases hc)
  | .ok _, .error _ => .isFalse (fun hc => by cases hc)
  | .ok x, .ok y =>
    if h : x = y then .isTrue (by rw [h])
    else .isFalse (fun hc => by cases hc; exact h rfl)

/-- `MaxProductNameLength` from `domain_errors.go`. -/
def MaxProductNameLength : Nat := 255

/-- `MaxCategoryLength` from `domain_errors.go`. -/
def MaxCategoryLength : Nat := 100

/-- An instant of `time.Time`, embedded as a point on a total integer timeline. -/
abbrev Time := Int

/-- `Money` from `money.go`: a `big.Rat` amount, embedded as an exact rational. -/
structure Money where
  amount : ℚ
  deriving DecidableEq, Repr

/-- `NewMoney(numerator, denominator int64)` from `money.go`.
`big.NewRat(n, d)` is the exact rational `n / d` (the `d = 0` panic case is
guarded away by the first check). -/
def NewMoney (numerator denominator : Int) : Except DomainError Money :=
  if denominator = 0 then .error .invalidMoney
  else if numerator < 0 then .error .negativeMoney
  else .ok ⟨(numerator : ℚ) / (denominator : ℚ)⟩

/-- `Money.Add` from `money.go`. -/
def Money.Add (m other : Money) : Money :=
  ⟨m.amount + other.amount⟩

/-- `Money.Subtract` from `money.go`: fails if the result would be negative. -/
def Money.Subtract (m other : Money) : Except DomainError Money :=
  if m.amount - other.amount < 0 then .error .negativeMoney
  else .ok ⟨m.amount - other.amount⟩

/-- `Money.Multiply` from `money.go`: fails on a negative factor. -/
def Money.Multiply (m : Money) (factor : ℚ) : Except DomainError Money :=
  if factor < 0 then .error .negativeMoney
  else .ok ⟨m.amount * factor⟩

/-- `Money.ApplyPercentage` from `money.go`: `m × percentage/100`. -/
def Money.ApplyPercentage (m : Money) (percentage : Int) : Money :=
  ⟨m.amount * ((percentage : ℚ) / 100)⟩

/-- `Money.SubtractPercentage` from `money.go`: `m − m × percentage/100`. -/
def Money.SubtractPercentage (m : Money) (percentage : Int) : Money :=
  ⟨m.amount - (m.ApplyPercentage percentage).amount⟩

/-- `Money.IsZero` from `money.go`. -/
def Money.IsZero (m : Money) : Bool :=
  decide (m.amount = 0)

/-- `Money.IsPositive` from `money.go`. -/
def Money.IsPositive (m : Money) : Bool :=
  decide (0 < m.amount)

/-- `Money.Equals` from `money.go` (exact rational comparison). -/
def Money.Equals (m other : Money) : Bool :=
  decide (m.amount = other.amount)

/-- `Discount` from `discount.go`: integer percentage with a validity window. -/
structure Discount where
  percentage : Int
  startDate : Time
  endDate : Time
  deriving DecidableEq, Repr

/-- `NewDiscount(percentage, startDate, endDate)` from `discount.go`. -/
def NewDiscount (percentage : Int) (startDate endDate : Time) :
    Except DomainError Discount :=
  if percentage ≤ 0 ∨ 100 < percentage then .error .invalidDiscountPercentage
  else if endDate < startDate then .error .invalidDiscountPeriod
  else .ok ⟨percentage, startDate, endDate⟩

/-- `Discount.IsValidAt` from `discount.go`: `!t.Before(start) && !t.After(end)`. -/
def Discount.IsValidAt (d : Discount) (t : Time) : Bool :=
  !decide (t < d.startDate) && !decide (t > d.endDate)

/-- `Discount.IsExpired` from `discount.go`: `now.After(end)`. -/
def Discount.IsExpired (d : Discount) (now : Time) : Bool :=
  decide (now > d.endDate)

/-- `Discount.HasStarted` from `discount.go`: `!now.Before(start)`. -/
def Discount.HasStarted (d : Discount) (now : Time) : Bool :=
  !decide (now < d.startDate)

/-- `Discount.Apply` from `discount.go`: delegates to `Money.SubtractPercentage`. -/
def Discount.Apply (d : Discount) (price : Money) : Money :=
  price.SubtractPercentage d.percentage

/-- `ProductStatus` from `product.go`. -/
inductive ProductStatus where
  | draft
  | active
  | inactive
  | archived
  deriving DecidableEq, Repr

/-- Domain events from `domain_events.go`, as a closed tagged variant.
Each constructor carries the aggregate id, the event-specific payload and
the occurrence time. -/
inductive DomainEvent where
  | created (id name description category : String) (basePrice : Money) (occurredAt : Time)
  | updated (id name description category : String) (occurredAt : Time)
  | activated (id : String) (occurredAt : Time)
  | deactivated (id : String) (occurredAt : Time)
  | archived (id : String) (occurredAt : Time)
  | discountApplied (id : String) (percentage : Int) (startDate endDate : Time)
      (occurredAt : Time)
  | discountRemoved (id : String) (occurredAt : Time)
  deriving DecidableEq, Repr

/-- Field-name constants from `product.go`. -/
def FieldName : String := "name"

def FieldDescription : String := "description"

def FieldCategory : String := "category"

def FieldBasePrice : String := "base_price"

def FieldDiscount : String := "discount"

def FieldStatus : String := "status"

def FieldArchivedAt : String := "archived_at"

/-- `ChangeTracker` from `product.go`: the set of dirty field names
(Go: `map[string]bool`), embedded as a duplicate-free list. -/
structure ChangeTracker where
  dirtyFields : List String
  deriving DecidableEq, Repr

/-- `NewChangeTracker` from `product.go`. -/
def NewChangeTracker : ChangeTracker := ⟨[]⟩

/-- `ChangeTracker.MarkDirty` from `product.go` (idempotent set insert). -/
def ChangeTracker.MarkDirty (ct : ChangeTracker) (field : String) : ChangeTracker :=
  if field ∈ ct.dirtyFields then ct else ⟨ct.dirtyFields ++ [field]⟩

/-- `ChangeTracker.Dirty` from `product.go`. -/
def ChangeTracker.Dirty (ct : ChangeTracker) (field : String) : Bool :=
  decide (field ∈ ct.dirtyFields)

/-- `ChangeTracker.HasChanges` from `product.go`. -/
def ChangeTracker.HasChanges (ct : ChangeTracker) : Bool :=
  !decide (ct.dirtyFields = [])

/-- `Product` aggregate root from `product.go`. The Go field `basePrice` is a
pointer that the validating constructor guarantees non-nil; `discount` and
`archivedAt` are genuinely optional. -/
structure Product where
  id : String
  name : String
  description : String
  category : String
  basePrice : Money
  discount : Option Discount
  status : ProductStatus
  createdAt : Time
  updatedAt : Time
  archivedAt : Option Time
  changes : ChangeTracker
  events : List DomainEvent
  isNew : Bool
  deriving DecidableEq, Repr

/-- `Product.IsActive` from `product.go`. -/
def Product.IsActive (p : Product) : Bool :=
  decide (p.status = .active)

/-- `Product.IsArchived` from `product.go`. -/
def Product.IsArchived (p : Product) : Bool :=
  decide (p.status = .archived)

/-- `NewProduct` from `product.go`: validating constructor. The Go parameter
`basePrice *Money` may be nil, embedded as `Option Money`; Go's `len` on a
string is its byte length, embedded as `String.utf8ByteSize`. -/
def NewProduct (id name description category : String) (basePrice : Option Money)
    (now : Time) : Except DomainError Product :=
  if name = "" then .error .emptyProductName
  else if MaxProductNameLength < name.utf8ByteSize then .error .productNameTooLong
  else if category = "" then .error .emptyCategory
  else if MaxCategoryLength < category.utf8ByteSize then .error .categoryTooLong
  else
    match basePrice with
    | none => .error .zeroPrice
    | some bp =>
      if bp.IsZero then .error .zeroPrice
      else .ok
        { id := id
          name := name
          description := description
          category := category
          basePrice := bp
          discount := none
          status := .draft
          createdAt := now
          updatedAt := now
          archivedAt := none
          changes := NewChangeTracker
          events := [.created id name description category bp now]
          isNew := true }

/-- `Reconstitute` from `product.go`: rebuilds an aggregate from persistence,
with no validation, no events and an empty change tracker. -/
def Reconstitute (id name description category : String) (basePrice : Money)
    (discount : Option Discount) (status : ProductStatus)
    (createdAt updatedAt : Time) (archivedAt : Option Time) : Product :=
  { id := id
    name := name
    description := description
    category := category
    basePrice := basePrice
    discount := discount
    status := status
    createdAt := createdAt
    updatedAt := updatedAt
    archivedAt := archivedAt
    changes := NewChangeTracker
    events := []
    isNew := false }

/-- `Product.EffectivePrice` from `product.go`: pure, no mutation. -/
def Product.EffectivePrice (p : Product) (now : Time) : Money :=
  match p.discount with
  | none => p.basePrice
  | some d => if d.IsValidAt now then d.Apply p.basePrice else p.basePrice

/-- `Product.HasActiveDiscount` from `product.go`. -/
def Product.HasActiveDiscount (p : Product) (now : Time) : Bool :=
  match p.discount with
  | none => false
  | some d => d.IsValidAt now

/-- `Product.Update` from `product.go`: revalidates the inputs, then marks
exactly the changed fields dirty; only if something changed does it bump
`updatedAt` and append one Updated event. -/
def Product.Update (p : Product) (name description category : String)
    (now : Time) : Except DomainError Product :=
  if p.IsArchived then .error .cannotUpdateArchived
  else if name = "" then .error .emptyProductName
  else if MaxProductNameLength < name.utf8ByteSize then .error .productNameTooLong
  else if category = "" then .error .emptyCategory
  else if MaxCategoryLength < category.utf8ByteSize then .error .categoryTooLong
  else
    let p1 := if p.name = name then p
      else { p with name := name, changes := p.changes.MarkDirty FieldName }
    let p2 := if p.description = description then p1
      else { p1 with description := description,
                     changes := p1.changes.MarkDirty FieldDescription }
    let p3 := if p.category = category then p2
      else { p2 with category := category,
                     changes := p2.changes.MarkDirty FieldCategory }
    if p.name = name ∧ p.description = description ∧ p.category = category then
      .ok p3
    else
      .ok { p3 with
              updatedAt := now
              events := p3.events ++ [.updated p.id name description category now] }

/-- `Product.Activate` from `product.go`. -/
def Product.Activate (p : Product) (now : Time) : Except DomainError Product :=
  if p.IsArchived then .error .cannotActivateArchived
  else if p.IsActive then .error .productAlreadyActive
  else .ok
    { p with
        status := .active
        updatedAt := now
        changes := p.changes.MarkDirty FieldStatus
        events := p.events ++ [.activated p.id now] }

/-- `Product.Deactivate` from `product.go`. -/
def Product.Deactivate (p : Product) (now : Time) : Except DomainError Product :=
  if p.IsArchived then .error .cannotDeactivateArchived
  else if p.status = .inactive then .error .productInactive
  else .ok
    { p with
        status := .inactive
        updatedAt := now
        changes := p.changes.MarkDirty FieldStatus
        events := p.events ++ [.deactivated p.id now] }

/-- `Product.Archive` from `product.go` (soft delete). -/
def Product.Archive (p : Product) (now : Time) : Except DomainError Product :=
  if p.IsArchived then .error .productArchived
  else if p.IsActive then .error .cannotArchiveActive
  else .ok
    { p with
        status := .archived
        archivedAt := some now
        updatedAt := now
        changes := (p.changes.MarkDirty FieldStatus).MarkDirty FieldArchivedAt
        events := p.events ++ [.archived p.id now] }

/-- `Product.ApplyDiscount` from `product.go`. The Go guard rejects only when
the discount is not valid at `now`, has not started, and is expired. -/
def Product.ApplyDiscount (p : Product) (discount : Discount) (now : Time) :
    Except DomainError Product :=
  if !p.IsActive then .error .productNotActive
  else if !discount.IsValidAt now && !discount.HasStarted now
      && discount.IsExpired now then .error .discountExpired
  else .ok
    { p with
        discount := some discount
        updatedAt := now
        changes := p.changes.MarkDirty FieldDiscount
        events := p.events ++
          [.discountApplied p.id discount.percentage discount.startDate
            discount.endDate now] }

/-- `Product.RemoveDiscount` from `product.go`. -/
def Product.RemoveDiscount (p : Product) (now : Time) :
    Except DomainError Product :=
  match p.discount with
  | none => .error .noDiscountToRemove
  | some _ => .ok
    { p with
        discount := none
        updatedAt := now
        changes := p.changes.MarkDirty FieldDiscount
        events := p.events ++ [.discountRemoved p.id now] }

/-! ## Read-model projection and list query

Embedding of `repo/read_model_repo.go` and
`queries/list_products` over an explicit list of stored rows standing for
the `products` table, with Spanner's SQL `WHERE`/`ORDER BY`/`LIMIT`/`OFFSET`
given its standard semantics (filter, sort, drop, take). -/

/-- Two's-complement wrap of Go `int64` arithmetic. -/
def wrap64 (x : Int) : Int :=
  (x + 2 ^ 63) % 2 ^ 64 - 2 ^ 63

/-- Go `int64` multiplication. -/
def i64mul (a b : Int) : Int :=
  wrap64 (a * b)

/-- Go `int64` subtraction. -/
def i64sub (a b : Int) : Int :=
  wrap64 (a - b)

/-- A stored row of the `products` table (`m_product.Product` in
`models/m_product/data.go`). `discount_percent` is a Spanner `NUMERIC`
column; the write path (`repo/product_repo.go`) only ever stores the
discount's integer percentage in it (`big.NewRat(d.Percentage(), 1)`), and
the read path recovers that integer (its float64 detour is exact for such
integers), so the column is embedded as the optional integer percentage. -/
structure DbRow where
  productID : String
  name : String
  description : String
  category : String
  basePriceNumerator : Int
  basePriceDenominator : Int
  discountPercent : Option Int
  discountStartDate : Option Time
  discountEndDate : Option Time
  status : String
  createdAt : Time
  updatedAt : Time
  archivedAt : Option Time
  deriving DecidableEq, Repr

/-- `contracts.ProductReadModel` from `contracts/read_model.go`. -/
structure ProductReadModel where
  id : String
  name : String
  description : String
  category : String
  basePriceNumerator : Int
  basePriceDenominator : Int
  effectivePriceNum : Int
  effectivePriceDenom : Int
  discountPercent : Option Int
  discountStartDate : Option Time
  discountEndDate : Option Time
  status : String
  createdAt : Time
  updatedAt : Time
  archivedAt : Option Time
  deriving DecidableEq, Repr

/-- `ReadModelRepo.rowToReadModel` from `repo/read_model_repo.go`.
`clockNow` is the repository's own clock reading (`r.clock.Now()`). -/
def rowToReadModel (clockNow : Time) (row : DbRow) : ProductReadModel :=
  let base : ProductReadModel :=
    { id := row.productID
      name := row.name
      description := row.description
      category := row.category
      basePriceNumerator := row.basePriceNumerator
      basePriceDenominator := row.basePriceDenominator
      effectivePriceNum := row.basePriceNumerator
      effectivePriceDenom := row.basePriceDenominator
      discountPercent := none
      discountStartDate := none
      discountEndDate := none
      status := row.status
      createdAt := row.createdAt
      updatedAt := row.updatedAt
      archivedAt := row.archivedAt }
  match row.discountPercent with
  | none => base
  | some pct =>
    let withPct := { base with discountPercent := some pct }
    match row.discountStartDate, row.discountEndDate with
    | some startDate, some endDate =>
      let withDates := { withPct with
        discountStartDate := some startDate
        discountEndDate := some endDate }
      if !decide (clockNow < startDate) && !decide (clockNow > endDate) then
        { withDates with
            effectivePriceNum := i64mul row.basePriceNumerator (i64sub 100 pct)
            effectivePriceDenom := i64mul row.basePriceDenominator 100 }
      else withDates
    | _, _ => withPct

/-- `contracts.ProductListFilters` from `contracts/read_model.go`. -/
structure ProductListFilters where
  category : Option String
  status : Option String
  activeOnly : Bool
  deriving DecidableEq, Repr

/-- `contracts.Pagination` from `contracts/read_model.go`. -/
structure Pagination where
  limit : Int
  offset : Int
  deriving DecidableEq, Repr

/-- `contracts.ProductListResult` from `contracts/read_model.go`. -/
structure ProductListResult where
  products : List ProductReadModel
  totalCount : Int
  hasMore : Bool
  deriving DecidableEq, Repr

/-- The `WHERE` clause built by `ReadModelRepo.List` (and, identically, by
its count query): active-only or exact status match, optional non-empty
category match, and the unconditional `status != 'archived'` term. -/
def matchesFilters (filters : ProductListFilters) (row : DbRow) : Bool :=
  (if filters.activeOnly then decide (row.status = "active")
   else
     match filters.status with
     | some s => decide (row.status = s)
     | none => true) &&
  (match filters.category with
   | some c => decide (c = "") || decide (row.category = c)
   | none => true) &&
  !decide (row.status = "archived")

/-- Insert into a list kept in descending `created_at` order. -/
def insertByCreatedDesc (row : DbRow) : List DbRow → List DbRow
  | [] => [row]
  | x :: xs =>
    if x.createdAt ≤ row.createdAt then row :: x :: xs
    else x :: insertByCreatedDesc row xs

/-- `ORDER BY created_at DESC` of the list query, as an insertion sort. -/
def sortByCreatedDesc : List DbRow → List DbRow
  | [] => []
  | x :: xs => insertByCreatedDesc x (sortByCreatedDesc xs)

/-- `ReadModelRepo.List` from `repo/read_model_repo.go`, over the rows of the
`products` table: the count query applies the same `WHERE` clause with no
limit/offset, the main query orders by `created_at DESC` and applies
`LIMIT`/`OFFSET`, and `hasMore := offset + len(products) < totalCount`. -/
def List_ (clockNow : Time) (filters : ProductListFilters)
    (pagination : Pagination) (rows : List DbRow) : ProductListResult :=
  let matching := rows.filter (matchesFilters filters)
  let totalCount : Int := matching.length
  let page :=
    ((sortByCreatedDesc matching).drop pagination.offset.toNat).take
      pagination.limit.toNat
  let products := page.map (rowToReadModel clockNow)
  { products := products
    totalCount := totalCount
    hasMore := decide (pagination.offset + products.length < totalCount) }

/-- `list_products.Request` from `queries/list_products`. -/
structure ListRequest where
  category : Option String
  status : Option String
  activeOnly : Bool
  limit : Int
  offset : Int
  deriving DecidableEq, Repr

/-- `list_products.Query.Execute`: applies the pagination defaults
(limit ≤ 0 becomes 20, limit > 100 is clamped to 100) and runs the
read-model list query. The DTO mapping copies products, total count and
the has-more flag unchanged, so the result is stated in repository terms. -/
def ExecuteList (clockNow : Time) (req : ListRequest) (rows : List DbRow) :
    ProductListResult :=
  let limit1 := if req.limit ≤ 0 then 20 else req.limit
  let limit2 := if 100 < limit1 then 100 else limit1
  List_ clockNow ⟨req.category, req.status, req.activeOnly⟩
    ⟨limit2, req.offset⟩ rows

/-! ## Sequences of domain operations

A command invokes exactly one domain mutation per request; a failed call
returns an error before any mutation, leaving the aggregate unchanged. -/

/-- One domain mutation of the command surface. -/
inductive Op where
  | update (name description category : String) (now : Time)
  | activate (now : Time)
  | deactivate (now : Time)
  | archive (now : Time)
  | applyDiscount (d : Discount) (now : Time)
  | removeDiscount (now : Time)
  deriving DecidableEq, Repr

/-- Run one domain operation; a failing call leaves the aggregate unchanged
(every Go method performs its error returns before its first mutation). -/
def Product.step (p : Product) : Op → Product
  | .update name description category now =>
    ((p.Update name description category now).toOption).getD p
  | .activate now => ((p.Activate now).toOption).getD p
  | .deactivate now => ((p.Deactivate now).toOption).getD p
  | .archive now => ((p.Archive now).toOption).getD p
  | .applyDiscount d now => ((p.ApplyDiscount d now).toOption).getD p
  | .removeDiscount now => ((p.RemoveDiscount now).toOption).getD p

/-- Run a finite sequence of domain operations. -/
def Product.applyOps (p : Product) (ops : List Op) : Product :=
  ops.foldl Product.step p

/-! ## Helper lemmas -/

/-- Membership after `MarkDirty` is membership before, or the new field. -/
theorem ChangeTracker.mem_MarkDirty (ct : ChangeTracker) (s x : String) :
    x ∈ (ct.MarkDirty s).dirtyFields ↔ x ∈ ct.dirtyFields ∨ x = s := by
  unfold ChangeTracker.MarkDirty
  by_cases h : s ∈ ct.dirtyFields
  · simp only [if_pos h]
    constructor
    · exact Or.inl
    · rintro (hx | rfl)
      · exact hx
      · exact h
  · simp [if_neg h]

/-- `wrap64` is the identity on the `int64` range. -/
theorem wrap64_eq_self (x : Int) (h1 : -(2 ^ 63) ≤ x) (h2 : x < 2 ^ 63) :
    wrap64 x = x := by
  unfold wrap64
  have h0 : 0 ≤ x + 2 ^ 63 := by linarith
  have h3 : x + 2 ^ 63 < 2 ^ 64 := by
    have : (2 : Int) ^ 64 = 2 ^ 63 + 2 ^ 63 := by norm_num
    omega
  rw [Int.emod_eq_of_lt h0 h3]
  ring

/-! ## Claim C1 — status state machine -/

/-- Claim C1 counterexample: the claim says that from Draft only Active or
Archived are reachable in one step and that `deactivate` does not move a
Draft product to Inactive; but `Deactivate` only rejects Archived and
already-Inactive products, so it moves this Draft product to Inactive. -/
theorem c1_deactivate_draft_counterexample :
    ((Reconstitute "p1" "Widget" "" "tools" ⟨1⟩ none .draft 0 0 none).Deactivate
        5).map Product.status = .ok .inactive := by
  decide

/-- Claim C1 (amended): one-step status transitions are exactly
Draft → {Active, Inactive, Archived}, Active → {Inactive},
Inactive → {Active, Archived}, and Archived has no outbound transitions;
in particular `archive` on an Active product fails with
`cannotArchiveActive` (MustDeactivateFirst). Failing calls return the error
before any mutation, so they leave the product unchanged. -/
theorem c1_status_transitions (p : Product) (now : Time) :
    (p.status = .draft →
      (p.Activate now).map Product.status = .ok .active ∧
      (p.Deactivate now).map Product.status = .ok .inactive ∧
      (p.Archive now).map Product.status = .ok .archived) ∧
    (p.status = .active →
      p.Activate now = .error .productAlreadyActive ∧
      (p.Deactivate now).map Product.status = .ok .inactive ∧
      p.Archive now = .error .cannotArchiveActive) ∧
    (p.status = .inactive →
      (p.Activate now).map Product.status = .ok .active ∧
      p.Deactivate now = .error .productInactive ∧
      (p.Archive now).map Product.status = .ok .archived) ∧
    (p.status = .archived →
      p.Activate now = .error .cannotActivateArchived ∧
      p.Deactivate now = .error .cannotDeactivateArchived ∧
      p.Archive now = .error .productArchived) := by
  refine ⟨fun h => ?_, fun h => ?_, fun h => ?_, fun h => ?_⟩ <;>
    simp [Product.Activate, Product.Deactivate, Product.Archive,
      Product.IsActive, Product.IsArchived, Except.map, h]

/-- Claim C1 witness: the amended theorem applied to a concrete Draft
product shows `deactivate` moving it to Inactive. -/
theorem c1_status_transitions_witness :
    ((Reconstitute "p1w" "Widget" "" "tools" ⟨1⟩ none .draft 0 0
        none).Deactivate 5).map Product.status = .ok .inactive :=
  ((c1_status_transitions
    (Reconstitute "p1w" "Widget" "" "tools" ⟨1⟩ none .draft 0 0 none) 5).1
    rfl).2.1

/-! ## Claim C2 — applyDiscount acceptance and rejection -/

/-- Claim C2 counterexample: a fully elapsed discount (end = 1 before
now = 5) applied to an Active product is accepted, not rejected with
`discountExpired` — the rejection guard needs the discount to be expired
and not yet started, impossible when start ≤ end. -/
theorem c2_expired_discount_accepted_counterexample :
    ((Reconstitute "p2" "Widget" "" "tools" ⟨1⟩ none .active 0 0
          none).ApplyDiscount ⟨20, 0, 1⟩ 5) ≠ .error .discountExpired ∧
    ((Reconstitute "p2" "Widget" "" "tools" ⟨1⟩ none .active 0 0
          none).ApplyDiscount ⟨20, 0, 1⟩ 5).map Product.discount =
      .ok (some ⟨20, 0, 1⟩) := by
  decide

/-- Claim C2 (amended): `ApplyDiscount` fails with `productNotActive` iff the
product is not Active; when the product is Active, every discount with
start ≤ end (as `NewDiscount` guarantees) is accepted — a future-dated one
and a fully elapsed one alike, the `discountExpired` branch being
unreachable — and the call replaces any existing discount, sets
`updatedAt`, marks the Discount field dirty and appends exactly one
DiscountApplied event. -/
theorem c2_applyDiscount_characterization (p : Product) (d : Discount)
    (now : Time) (hd : d.startDate ≤ d.endDate) :
    (p.status ≠ .active → p.ApplyDiscount d now = .error .productNotActive) ∧
    (p.status = .active → p.ApplyDiscount d now = .ok
      { p with
          discount := some d
          updatedAt := now
          changes := p.changes.MarkDirty FieldDiscount
          events := p.events ++
            [.discountApplied p.id d.percentage d.startDate d.endDate now] }) := by
  constructor
  · intro h
    simp [Product.ApplyDiscount, Product.IsActive, h]
  · intro h
    have hfalse :
        (!d.IsValidAt now && !d.HasStarted now && d.IsExpired now) = false := by
      by_cases h1 : now < d.startDate
      · have h2 : ¬ now > d.endDate := by linarith
        simp [Discount.IsExpired, h2]
      · simp [Discount.HasStarted, h1]
    simp [Product.ApplyDiscount, Product.IsActive, h, hfalse]

/-- Claim C2 witness: the amended theorem applied to a concrete Active
product and a concrete fully elapsed discount. -/
theorem c2_applyDiscount_witness :
    (Reconstitute "p2w" "Widget" "" "tools" ⟨1⟩ none .active 0 0
        none).ApplyDiscount ⟨20, 0, 1⟩ 5 = .ok
      { (Reconstitute "p2w" "Widget" "" "tools" ⟨1⟩ none .active 0 0 none) with
          discount := some ⟨20, 0, 1⟩
          updatedAt := 5
          changes := ChangeTracker.MarkDirty ⟨[]⟩ FieldDiscount
          events := [.discountApplied "p2w" 20 0 1 5] } :=
  (c2_applyDiscount_characterization
    (Reconstitute "p2w" "Widget" "" "tools" ⟨1⟩ none .active 0 0 none)
    ⟨20, 0, 1⟩ 5 (by decide)).2 rfl

/-! ## Claim C3 — Money non-negativity -/

/-- Claim C3 counterexample: `NewMoney` validates the numerator sign but not
the denominator sign, so `NewMoney 5 (-1)` succeeds and represents the
negative rational −5 — the claim that every constructed Money is ≥ 0 (and
that a negative represented value is rejected with `negativeMoney`) fails. -/
theorem c3_negative_denominator_counterexample :
    NewMoney 5 (-1) = .ok ⟨-5⟩ ∧ ((-5 : ℚ) < 0) := by
  refine ⟨?_, by norm_num⟩
  simp only [NewMoney]
  norm_num

/-- Claim C3 (amended): `NewMoney` fails with `invalidMoney` when the
denominator is 0 and with `negativeMoney` when the numerator is negative;
whenever the denominator is positive (as in every in-repo call site) the
constructed value is ≥ 0, and no succeeding Money operation — `Add`, the
bounded `Subtract`, `Multiply` by a non-negative factor,
`SubtractPercentage` with percentage in [0, 100] — returns a negative value
from non-negative inputs. -/
theorem c3_money_nonnegative (n d : Int) (a b : Money) (factor : ℚ) (pct : Int)
    (ha : 0 ≤ a.amount) (hb : 0 ≤ b.amount) (hf : 0 ≤ factor)
    (hp0 : 0 ≤ pct) (hp1 : pct ≤ 100) :
    (d = 0 → NewMoney n d = .error .invalidMoney) ∧
    (n < 0 → d ≠ 0 → NewMoney n d = .error .negativeMoney) ∧
    (0 ≤ n → 0 < d →
      NewMoney n d = .ok ⟨(n : ℚ) / (d : ℚ)⟩ ∧ 0 ≤ ((n : ℚ) / (d : ℚ))) ∧
    0 ≤ (a.Add b).amount ∧
    (∀ m, a.Subtract b = .ok m → 0 ≤ m.amount) ∧
    (∀ m, a.Multiply factor = .ok m → 0 ≤ m.amount) ∧
    0 ≤ (a.SubtractPercentage pct).amount := by
  refine ⟨fun h => by simp [NewMoney, h], fun h1 h2 => by simp [NewMoney, h1, h2],
    fun h1 h2 => ?_, ?_, fun m hm => ?_, fun m hm => ?_, ?_⟩
  · have hnum : ¬ n < 0 := not_lt.2 h1
    have hden : d ≠ 0 := h2.ne'
    refine ⟨by simp [NewMoney, hnum, hden], ?_⟩
    have hn : (0 : ℚ) ≤ (n : ℚ) := by exact_mod_cast h1
    have hd : (0 : ℚ) ≤ (d : ℚ) := by exact_mod_cast h2.le
    exact div_nonneg hn hd
  · simpa [Money.Add] using add_nonneg ha hb
  · unfold Money.Subtract at hm
    by_cases hc : a.amount - b.amount < 0
    · simp [hc] at hm
    · simp [hc] at hm
      simpa [← hm] using not_lt.1 hc
  · unfold Money.Multiply at hm
    have hc : ¬ factor < 0 := not_lt.2 hf
    simp [hc] at hm
    simpa [← hm] using mul_nonneg ha hf
  · have hle : (pct : ℚ) / 100 ≤ 1 := by
      rw [div_le_one (by norm_num)]
      exact_mod_cast hp1
    have := mul_le_of_le_one_right ha hle
    simp only [Money.SubtractPercentage, Money.ApplyPercentage]
    linarith

/-- Claim C3 witness: the amended theorem instantiated at concrete values
(`NewMoney 3 2` and a 50% subtraction from the amount 3). -/
theorem c3_money_nonnegative_witness :
    0 ≤ ((⟨3⟩ : Money).SubtractPercentage 50).amount :=
  (c3_money_nonnegative 3 2 ⟨3⟩ ⟨1⟩ 1 50 (by decide) (by decide) (by decide)
    (by decide) (by decide)).2.2.2.2.2.2

/-! ## Claim C9 — add/subtract round trip -/

/-- Claim C9 counterexample: the claimed valid-input domain (denominator ≠ 0,
numerator ≥ 0) admits `NewMoney 5 (-1)`, whose value is −5; adding the valid
Money 1 and subtracting it again asks `Subtract` for a negative result, which
fails with `negativeMoney` instead of round-tripping. -/
theorem c9_roundtrip_counterexample :
    NewMoney 5 (-1) = .ok ⟨-5⟩ ∧ NewMoney 1 1 = .ok ⟨1⟩ ∧
    (Money.Add ⟨-5⟩ ⟨1⟩).Subtract ⟨1⟩ = .error .negativeMoney := by
  refine ⟨?_, ?_, ?_⟩
  · simp only [NewMoney]
    norm_num
  · simp only [NewMoney]
    norm_num
  · simp only [Money.Add, Money.Subtract]
    norm_num

/-- Claim C9 (amended): for numerators ≥ 0 and positive denominators,
`NewMoney` succeeds and `(a.Add b).Subtract b` succeeds and returns exactly
`a` (exact rational comparison). -/
theorem c9_add_subtract_roundtrip (na da nb db6 : Int)
    (hna : 0 ≤ na) (hda : 0 < da) (hnb : 0 ≤ nb) (hdb : 0 < db6) :
    NewMoney na da = .ok ⟨(na : ℚ) / (da : ℚ)⟩ ∧
    NewMoney nb db6 = .ok ⟨(nb : ℚ) / (db6 : ℚ)⟩ ∧
    ((Money.mk ((na : ℚ) / (da : ℚ))).Add ⟨(nb : ℚ) / (db6 : ℚ)⟩).Subtract
      ⟨(nb : ℚ) / (db6 : ℚ)⟩ = .ok ⟨(na : ℚ) / (da : ℚ)⟩ := by
  refine ⟨by simp [NewMoney, hda.ne', not_lt.2 hna],
    by simp [NewMoney, hdb.ne', not_lt.2 hnb], ?_⟩
  have ha : (0 : ℚ) ≤ (na : ℚ) / (da : ℚ) := by
    have hn : (0 : ℚ) ≤ (na : ℚ) := by exact_mod_cast hna
    have hd : (0 : ℚ) ≤ (da : ℚ) := by exact_mod_cast hda.le
    exact div_nonneg hn hd
  have key : (na : ℚ) / (da : ℚ) + (nb : ℚ) / (db6 : ℚ) - (nb : ℚ) / (db6 : ℚ)
      = (na : ℚ) / (da : ℚ) := by ring
  simp only [Money.Add, Money.Subtract, key]
  rw [if_neg (not_lt.2 ha)]

/-- Claim C9 witness: the amended round trip at `NewMoney 3 2` and
`NewMoney 1 4`. -/
theorem c9_add_subtract_roundtrip_witness :
    ((Money.mk ((3 : ℚ) / (2 : ℚ))).Add ⟨(1 : ℚ) / (4 : ℚ)⟩).Subtract
      ⟨(1 : ℚ) / (4 : ℚ)⟩ = .ok ⟨(3 : ℚ) / (2 : ℚ)⟩ :=
  (c9_add_subtract_roundtrip 3 2 1 4 (by decide) (by decide) (by decide)
    (by decide)).2.2

/-! ## Claim C10 — removeDiscount ignores status -/

/-- Claim C10: `RemoveDiscount` fails with `noDiscountToRemove` iff no
discount is attached, and otherwise — regardless of the product's status,
Archived included — clears the discount, sets `updatedAt`, marks the
Discount field dirty and appends one DiscountRemoved event. -/
theorem c10_removeDiscount_characterization (p : Product) (now : Time) :
    (p.discount = none → p.RemoveDiscount now = .error .noDiscountToRemove) ∧
    (∀ d, p.discount = some d → p.RemoveDiscount now = .ok
      { p with
          discount := none
          updatedAt := now
          changes := p.changes.MarkDirty FieldDiscount
          events := p.events ++ [.discountRemoved p.id now] }) := by
  constructor
  · intro h
    simp [Product.RemoveDiscount, h]
  · intro d h
    simp [Product.RemoveDiscount, h]

/-- Claim C10 witness: an Archived product still carrying a discount is
reachable by applyDiscount-while-Active, deactivate, archive; on it
`RemoveDiscount` succeeds. -/
theorem c10_removeDiscount_witness :
    ((Reconstitute "pX" "Widget" "" "tools" ⟨1⟩ none .active 0 0 none).applyOps
        [.applyDiscount ⟨20, 0, 10⟩ 2, .deactivate 3, .archive 4]).status =
      .archived ∧
    ((Reconstitute "pX" "Widget" "" "tools" ⟨1⟩ none .active 0 0 none).applyOps
        [.applyDiscount ⟨20, 0, 10⟩ 2, .deactivate 3, .archive 4]).RemoveDiscount
        5 = .ok
      { ((Reconstitute "pX" "Widget" "" "tools" ⟨1⟩ none .active 0 0
            none).applyOps
          [.applyDiscount ⟨20, 0, 10⟩ 2, .deactivate 3, .archive 4]) with
          discount := none
          updatedAt := 5
          changes := (((Reconstitute "pX" "Widget" "" "tools" ⟨1⟩ none .active 0
              0 none).applyOps
            [.applyDiscount ⟨20, 0, 10⟩ 2, .deactivate 3,
              .archive 4]).changes).MarkDirty FieldDiscount
          events := (((Reconstitute "pX" "Widget" "" "tools" ⟨1⟩ none .active 0
              0 none).applyOps
            [.applyDiscount ⟨20, 0, 10⟩ 2, .deactivate 3,
              .archive 4]).events) ++ [.discountRemoved "pX" 5] } :=
  ⟨by decide,
    (c10_removeDiscount_characterization
      ((Reconstitute "pX" "Widget" "" "tools" ⟨1⟩ none .active 0 0
          none).applyOps
        [.applyDiscount ⟨20, 0, 10⟩ 2, .deactivate 3, .archive 4]) 5).2
      ⟨20, 0, 10⟩ (by decide)⟩

/-! ## Claim C5 — archived rows and the list filter -/

/-- Claim C5: the list query's `WHERE` clause appends
`status != 'archived'` unconditionally, so even a request whose status
filter explicitly asks for archived products gets an always-empty
conjunction `status = 'archived' AND status != 'archived'`: with a table
holding one archived row, the query returns no rows and total count 0,
where the claim (and spec §4.6) promises the archived row. -/
theorem c5_archived_filter_returns_nothing :
    ExecuteList 0 ⟨none, some "archived", false, 20, 0⟩
      [⟨"p9", "Old", "", "tools", 1, 1, none, none, none, "archived", 0, 0,
        some 0⟩] = ⟨[], 0, false⟩ := by
  decide

/-- A successful `Update` never changes the status or the archive
timestamp. -/
theorem update_preserves_status_archivedAt (p : Product) (nm dsc ct : String)
    (now : Time) (q : Product) (hq : p.Update nm dsc ct now = .ok q) :
    q.status = p.status ∧ q.archivedAt = p.archivedAt := by
  by_cases g0 : p.IsArchived
  · simp [Product.Update, g0] at hq
  by_cases g2 : nm = ""
  · simp [Product.Update, g0, g2] at hq
  by_cases g3 : MaxProductNameLength < nm.utf8ByteSize
  · simp [Product.Update, g0, g2, g3] at hq
  by_cases g4 : ct = ""
  · simp [Product.Update, g0, g2, g3, g4] at hq
  by_cases g5 : MaxCategoryLength < ct.utf8ByteSize
  · simp [Product.Update, g0, g2, g3, g4, g5] at hq
  have g1 : p.IsArchived = false := by simpa using g0
  by_cases e1 : p.name = nm <;> by_cases e2 : p.description = dsc <;>
    by_cases e3 : p.category = ct <;>
  · simp only [Product.Update, g1, Bool.false_eq_true, if_false, g2, g3, g4,
      g5, if_neg, e1, e2, e3, if_true, ite_true, ite_false, and_true, true_and,
      and_false, false_and, not_true, not_false_iff] at hq
    rw [Except.ok.injEq] at hq
    subst hq
    exact ⟨rfl, rfl⟩

/-- Every single domain operation preserves the "archived-at set iff status
Archived" invariant. -/
theorem step_preserves_archivedAt_inv (p : Product) (op : Op)
    (h : p.archivedAt ≠ none ↔ p.status = .archived) :
    (p.step op).archivedAt ≠ none ↔ (p.step op).status = .archived := by
  cases op with
  | update nm dsc ct now =>
    unfold Product.step
    cases hq : p.Update nm dsc ct now with
    | error e => simpa [hq, Except.toOption] using h
    | ok q =>
      obtain ⟨h1, h2⟩ := update_preserves_status_archivedAt p nm dsc ct now q hq
      simpa [hq, Except.toOption, h1, h2] using h
  | activate now =>
    unfold Product.step Product.Activate
    by_cases h1 : p.IsArchived
    · simpa [h1, Except.toOption] using h
    · by_cases h2 : p.IsActive
      · simpa [h1, h2, Except.toOption] using h
      · have harch : p.status ≠ .archived := by
          simpa [Product.IsArchived] using h1
        have hnone : p.archivedAt = none := by
          by_contra hcon
          exact harch (h.1 hcon)
        simp [h1, h2, Except.toOption, hnone]
  | deactivate now =>
    unfold Product.step Product.Deactivate
    by_cases h1 : p.IsArchived
    · simpa [h1, Except.toOption] using h
    · by_cases h2 : p.status = .inactive
      · simpa [h1, h2, Except.toOption] using h
      · have harch : p.status ≠ .archived := by
          simpa [Product.IsArchived] using h1
        have hnone : p.archivedAt = none := by
          by_contra hcon
          exact harch (h.1 hcon)
        simp [h1, h2, Except.toOption, hnone]
  | archive now =>
    unfold Product.step Product.Archive
    by_cases h1 : p.IsArchived
    · simpa [h1, Except.toOption] using h
    · by_cases h2 : p.IsActive
      · simpa [h1, h2, Except.toOption] using h
      · simp [h1, h2, Except.toOption]
  | applyDiscount dsc now =>
    unfold Product.step Product.ApplyDiscount
    by_cases h1 : p.IsActive
    · by_cases h2 : (!dsc.IsValidAt now && !dsc.HasStarted now
          && dsc.IsExpired now) = true
      · simpa [h1, h2, Except.toOption] using h
      · simpa [h1, h2, Except.toOption] using h
    · simpa [h1, Except.toOption] using h
  | removeDiscount now =>
    unfold Product.step Product.RemoveDiscount
    cases hd : p.discount with
    | none => simpa [hd, Except.toOption] using h
    | some dd => simpa [hd, Except.toOption] using h

/-! ## Claim C8 — archived-at iff Archived -/

/-- Claim C8: a product built by the validating constructor and then mutated
by any finite sequence of domain operations has its archive timestamp set
exactly when its status is Archived. -/
theorem c8_archivedAt_iff_archived (id7 nm dsc ct : String) (bp : Option Money)
    (t : Time) (p : Product) (ops : List Op)
    (h : NewProduct id7 nm dsc ct bp t = .ok p) :
    ((p.applyOps ops).archivedAt ≠ none ↔
      (p.applyOps ops).status = .archived) := by
  have h0 : p.archivedAt = none ∧ p.status = .draft := by
    simp only [NewProduct] at h
    repeat' split at h
    all_goals first
      | (rw [Except.ok.injEq] at h
         subst h
         exact ⟨rfl, rfl⟩)
      | simp_all
  have hbase : p.archivedAt ≠ none ↔ p.status = .archived := by
    rw [h0.1, h0.2]
    simp
  clear h h0
  induction ops generalizing p with
  | nil => simpa [Product.applyOps] using hbase
  | cons op rest ih =>
    have hstep := step_preserves_archivedAt_inv p op hbase
    have := ih (p.step op) hstep
    simpa [Product.applyOps, List.foldl_cons] using this

/-- Claim C8 witness: the invariant evaluated after
activate → deactivate → archive on a freshly constructed product. -/
theorem c8_archivedAt_iff_archived_witness :
    (({ id := "w8", name := "Widget", description := "", category := "tools",
        basePrice := ⟨1⟩, discount := none, status := .draft, createdAt := 0,
        updatedAt := 0, archivedAt := none, changes := ⟨[]⟩,
        events := [.created "w8" "Widget" "" "tools" ⟨1⟩ 0],
        isNew := true } : Product).applyOps
          [.activate 1, .deactivate 2, .archive 3]).archivedAt ≠ none ↔
    (({ id := "w8", name := "Widget", description := "", category := "tools",
        basePrice := ⟨1⟩, discount := none, status := .draft, createdAt := 0,
        updatedAt := 0, archivedAt := none, changes := ⟨[]⟩,
        events := [.created "w8" "Widget" "" "tools" ⟨1⟩ 0],
        isNew := true } : Product).applyOps
          [.activate 1, .deactivate 2, .archive 3]).status = .archived :=
  c8_archivedAt_iff_archived "w8" "Widget" "" "tools" (some ⟨1⟩) 0
    { id := "w8", name := "Widget", description := "", category := "tools",
      basePrice := ⟨1⟩, discount := none, status := .draft, createdAt := 0,
      updatedAt := 0, archivedAt := none, changes := ⟨[]⟩,
      events := [.created "w8" "Widget" "" "tools" ⟨1⟩ 0], isNew := true }
    [.activate 1, .deactivate 2, .archive 3] (by decide)

/-! ## Claim C6 — update frame conditions -/

/-- Claim C6: for a non-archived product and valid inputs, `Update` always
succeeds; called with values identical to the current state it returns the
product exactly unchanged (no field, no `updatedAt`, no dirty marks, no
events); with at least one differing value it sets exactly the new field
values, bumps `updatedAt` to `now`, appends exactly one Updated event with
the new values, leaves id, base price, discount, status, created-at and
archived-at unchanged, and adds exactly the differing fields to the dirty
set. -/
theorem c6_update_frame (p : Product) (n d c : String) (now : Time)
    (harch : p.status ≠ .archived)
    (hn : n ≠ "") (hnl : n.utf8ByteSize ≤ MaxProductNameLength)
    (hc : c ≠ "") (hcl : c.utf8ByteSize ≤ MaxCategoryLength) :
    (p.Update n d c now).isOk = true ∧
    ((p.name = n ∧ p.description = d ∧ p.category = c) →
      p.Update n d c now = .ok p) ∧
    (∀ q, p.Update n d c now = .ok q →
      ¬(p.name = n ∧ p.description = d ∧ p.category = c) →
      q.name = n ∧ q.description = d ∧ q.category = c ∧
      q.updatedAt = now ∧
      q.events = p.events ++ [.updated p.id n d c now] ∧
      q.id = p.id ∧ q.basePrice = p.basePrice ∧ q.discount = p.discount ∧
      q.status = p.status ∧ q.createdAt = p.createdAt ∧
      q.archivedAt = p.archivedAt ∧ q.isNew = p.isNew ∧
      (∀ f, f ∈ q.changes.dirtyFields ↔ f ∈ p.changes.dirtyFields ∨
        (f = FieldName ∧ p.name ≠ n) ∨
        (f = FieldDescription ∧ p.description ≠ d) ∨
        (f = FieldCategory ∧ p.category ≠ c))) := by
  have g1 : p.IsArchived = false := by
    simp [Product.IsArchived, harch]
  have hnl' : ¬ MaxProductNameLength < n.utf8ByteSize := not_lt.2 hnl
  have hcl' : ¬ MaxCategoryLength < c.utf8ByteSize := not_lt.2 hcl
  refine ⟨?_, ?_, ?_⟩
  · simp only [Product.Update, g1, Bool.false_eq_true, if_false, hn, hnl', hc,
      hcl', if_neg]
    split <;> rfl
  · rintro ⟨e1, e2, e3⟩
    simp [Product.Update, g1, hn, hnl', hc, hcl', e1, e2, e3]
  · intro q hq hne
    simp only [Product.Update, g1, Bool.false_eq_true, if_false, hn, hnl', hc,
      hcl', if_neg] at hq
    by_cases e1 : p.name = n <;> by_cases e2 : p.description = d <;>
      by_cases e3 : p.category = c
    · exact absurd ⟨e1, e2, e3⟩ hne
    all_goals
      simp only [e1, e2, e3, if_true, if_false, ite_true, ite_false, and_true,
        true_and, and_false, false_and, not_true, not_false_iff] at hq
      rw [Except.ok.injEq] at hq
      subst hq
      refine ⟨by simp [e1, e2, e3], by simp [e1, e2, e3], by simp [e1, e2, e3],
        rfl, rfl, rfl, rfl, rfl, rfl, rfl, rfl, rfl, fun f => ?_⟩
      simp only [ChangeTracker.mem_MarkDirty, e1, e2, e3]
      tauto

/-- Claim C6 witness: an identical-values `Update` on a concrete non-archived
product returns it exactly unchanged. -/
theorem c6_update_frame_witness :
    (Reconstitute "p6" "Widget" "desc" "tools" ⟨1⟩ none .draft 0 0
        none).Update "Widget" "desc" "tools" 9 =
      .ok (Reconstitute "p6" "Widget" "desc" "tools" ⟨1⟩ none .draft 0 0
        none) :=
  (c6_update_frame
    (Reconstitute "p6" "Widget" "desc" "tools" ⟨1⟩ none .draft 0 0 none)
    "Widget" "desc" "tools" 9 (by decide) (by decide) (by decide) (by decide)
    (by decide)).2.1 ⟨rfl, rfl, rfl⟩

/-! ## Claim C4 — effective price, aggregate and projection -/

/-- Claim C4: the aggregate's `EffectivePrice` and the read-model
projection's effective price both equal the base price when no discount is
attached or `now` lies strictly outside the `[start, end]` window, and both
equal base × (100 − pct) / 100 exactly when start ≤ now ≤ end. The
projection computes in Go `int64`; its equations hold whenever the operands
and products lie in the `int64` range, which the final four bound
hypotheses express. -/
theorem c4_effective_price (p : Product) (now clockNow : Time) (row : DbRow) :
    (p.discount = none → p.EffectivePrice now = p.basePrice) ∧
    (∀ dd, p.discount = some dd → (now < dd.startDate ∨ dd.endDate < now) →
      p.EffectivePrice now = p.basePrice) ∧
    (∀ dd, p.discount = some dd → dd.startDate ≤ now → now ≤ dd.endDate →
      (p.EffectivePrice now).amount =
        p.basePrice.amount * ((100 - dd.percentage : Int) : ℚ) / 100) ∧
    (row.discountPercent = none →
      (rowToReadModel clockNow row).effectivePriceNum = row.basePriceNumerator ∧
      (rowToReadModel clockNow row).effectivePriceDenom =
        row.basePriceDenominator) ∧
    (∀ pct sd ed, row.discountPercent = some pct →
      row.discountStartDate = some sd → row.discountEndDate = some ed →
      (clockNow < sd ∨ ed < clockNow) →
      (rowToReadModel clockNow row).effectivePriceNum = row.basePriceNumerator ∧
      (rowToReadModel clockNow row).effectivePriceDenom =
        row.basePriceDenominator) ∧
    (∀ pct sd ed, row.discountPercent = some pct →
      row.discountStartDate = some sd → row.discountEndDate = some ed →
      sd ≤ clockNow → clockNow ≤ ed →
      -(2 ^ 63) ≤ 100 - pct → 100 - pct < 2 ^ 63 →
      -(2 ^ 63) ≤ row.basePriceNumerator * (100 - pct) →
      row.basePriceNumerator * (100 - pct) < 2 ^ 63 →
      -(2 ^ 63) ≤ row.basePriceDenominator * 100 →
      row.basePriceDenominator * 100 < 2 ^ 63 →
      (rowToReadModel clockNow row).effectivePriceNum =
        row.basePriceNumerator * (100 - pct) ∧
      (rowToReadModel clockNow row).effectivePriceDenom =
        row.basePriceDenominator * 100) := by
  refine ⟨fun h => ?_, fun dd h hout => ?_, fun dd h h1 h2 => ?_,
    fun h => ?_, fun pct sd ed h hs he hout => ?_,
    fun pct sd ed h hs he h1 h2 hb1 hb2 hb3 hb4 hb5 hb6 => ?_⟩
  · simp [Product.EffectivePrice, h]
  · have hv : dd.IsValidAt now = false := by
      rcases hout with hout | hout <;> simp [Discount.IsValidAt, hout]
    simp [Product.EffectivePrice, h, hv]
  · have hv : dd.IsValidAt now = true := by
      simp only [Discount.IsValidAt, Bool.and_eq_true, Bool.not_eq_true',
        decide_eq_false_iff_not, not_lt, gt_iff_lt]
      exact ⟨h1, h2⟩
    have hcast : ((100 - dd.percentage : Int) : ℚ) = 100 - (dd.percentage : ℚ) := by
      push_cast
      ring
    simp only [Product.EffectivePrice, h, hv, if_pos, Discount.Apply,
      Money.SubtractPercentage, Money.ApplyPercentage, hcast]
    ring
  · simp [rowToReadModel, h]
  · have hcond :
        (!decide (clockNow < sd) && !decide (clockNow > ed)) = false := by
      rcases hout with hout | hout
      · simp [hout]
      · simp only [Bool.and_eq_false_iff, Bool.not_eq_true',
          decide_eq_false_iff_not, not_not, not_lt, gt_iff_lt]
        right
        simp [hout]

    simp [rowToReadModel, h, hs, he, hcond]
  · have hcond :
        (!decide (clockNow < sd) && !decide (clockNow > ed)) = true := by
      simp only [Bool.and_eq_true, Bool.not_eq_true', decide_eq_false_iff_not,
        not_lt, gt_iff_lt]
      exact ⟨h1, h2⟩
    have e1 : i64sub 100 pct = 100 - pct := wrap64_eq_self _ hb1 hb2
    have e2 : i64mul row.basePriceNumerator (100 - pct) =
        row.basePriceNumerator * (100 - pct) := wrap64_eq_self _ hb3 hb4
    have e3 : i64mul row.basePriceDenominator 100 =
        row.basePriceDenominator * 100 := wrap64_eq_self _ hb5 hb6
    simp [rowToReadModel, h, hs, he, hcond, e1, e2, e3]

/-- Claim C7: when the requested limit is ≤ 0 the list runs with the default
page size 20, and when it exceeds 100 it is clamped to 100 rather than
rejected; the returned total count is the number of rows matching the
filters, ignoring limit and offset; and `hasMore` is true exactly when
offset + (rows returned) < total count. -/
theorem c7_list_pagination (clockNow : Time) (req : ListRequest)
    (rows : List DbRow) :
    (req.limit ≤ 0 → ExecuteList clockNow req rows =
      List_ clockNow ⟨req.category, req.status, req.activeOnly⟩
        ⟨20, req.offset⟩ rows) ∧
    (100 < req.limit → ExecuteList clockNow req rows =
      List_ clockNow ⟨req.category, req.status, req.activeOnly⟩
        ⟨100, req.offset⟩ rows) ∧
    (ExecuteList clockNow req rows).totalCount =
      ((rows.filter
        (matchesFilters ⟨req.category, req.status, req.activeOnly⟩)).length :
          Int) ∧
    ((ExecuteList clockNow req rows).hasMore = true ↔
      req.offset + ((ExecuteList clockNow req rows).products.length : Int) <
        (ExecuteList clockNow req rows).totalCount) := by
  refine ⟨fun h => ?_, fun h => ?_, ?_, ?_⟩
  · simp [ExecuteList, h]
  · have h0 : ¬ req.limit ≤ 0 := by linarith
    simp [ExecuteList, h0, h]
  · rfl
  · simp only [ExecuteList, List_]
    simp

/-- Claim C7 witness: an unspecified (zero) limit runs the repository list
query with page size 20. -/
theorem c7_list_pagination_witness :
    ExecuteList 0 ⟨none, none, false, 0, 0⟩ [] =
      List_ 0 ⟨none, none, false⟩ ⟨20, 0⟩ [] :=
  (c7_list_pagination 0 ⟨none, none, false, 0, 0⟩ []).1 (by decide)

/-- Claim C4 witness: a product with a 20% discount valid at `now = 5` has
effective price 80% of base, both in the aggregate and in the projection of
the corresponding row. -/
theorem c4_effective_price_witness :
    ((Reconstitute "p4" "Widget" "" "tools" ⟨100⟩ (some ⟨20, 0, 10⟩) .active 0 0
          none).EffectivePrice 5).amount =
      (Money.amount ⟨100⟩) * ((100 - (20 : Int) : Int) : ℚ) / 100 ∧
    (rowToReadModel 5
        ⟨"p4", "Widget", "", "tools", 100, 1, some 20, some 0, some 10,
          "active", 0, 0, none⟩).effectivePriceNum = 100 * (100 - 20) ∧
    (rowToReadModel 5
        ⟨"p4", "Widget", "", "tools", 100, 1, some 20, some 0, some 10,
          "active", 0, 0, none⟩).effectivePriceDenom = 1 * 100 :=
  ⟨(c4_effective_price
      (Reconstitute "p4" "Widget" "" "tools" ⟨100⟩ (some ⟨20, 0, 10⟩) .active 0
        0 none) 5 5
      ⟨"p4", "Widget", "", "tools", 100, 1, some 20, some 0, some 10, "active",
        0, 0, none⟩).2.2.1 ⟨20, 0, 10⟩ rfl (by decide) (by decide),
    (c4_effective_price
      (Reconstitute "p4" "Widget" "" "tools" ⟨100⟩ (some ⟨20, 0, 10⟩) .active 0
        0 none) 5 5
      ⟨"p4", "Widget", "", "tools", 100, 1, some 20, some 0, some 10, "active",
        0, 0, none⟩).2.2.2.2.2 20 0 10 rfl rfl rfl (by decide) (by decide)
      (by decide) (by decide) (by decide) (by decide) (by decide) (by decide)⟩
